import Mathlib

/-!
Verification of the myclaw agent tool-orchestration core against its
natural-language specification. Each definition is a shallow embedding of a
function of the TypeScript source (src/src/ai.ts, src/src/tools/index.ts,
src/src/tools/cron.ts, and the sessions-spawn / sessions-send / gateway tool
files); asynchronous handlers that may reject are modelled as functions into
Except, external collaborators (LLM HTTP calls, the LINE push channel, the
node-cron validator, JS Date parsing) are oracle parameters, and the SQLite
tables are lists of rows keyed by id.
-/

namespace MyClaw

/-- Per-invocation context handed to every tool call (src/tools/types.ts
ToolContext): the caller's LINE user id, possibly absent. The lineClient
capability carries no observable state here. -/
structure ToolContext where
  userId : Option String
deriving DecidableEq

/-- One registered tool (src/tools/types.ts ToolDefinition): a unique name and
an async execute handler. A handler whose promise rejects with message m is
modelled as returning Except.error m; arguments are carried as one opaque
string. -/
structure ToolDefinition where
  name : String
  execute : String → ToolContext → Except String String

/-- findTool of src/tools/index.ts (line 62): first tool of the registry with
the given name, as Array.prototype.find does. -/
def findTool (tools : List ToolDefinition) (name : String) : Option ToolDefinition :=
  tools.find? (fun t => t.name == name)

/-- executeTool of src/tools/index.ts (lines 76-90): look the tool up; when
absent return the not-found error string; otherwise await the handler and map
a rejection to the error-executing string. The function is total, so the
invoker always resolves to a string. -/
def executeTool (tools : List ToolDefinition) (name : String) (input : String)
    (context : ToolContext) : String :=
  match findTool tools name with
  | none => "Error: tool \"" ++ name ++ "\" not found"
  | some tool =>
    match tool.execute input context with
    | Except.ok result => result
    | Except.error err => "Error executing " ++ name ++ ": " ++ err

/-- Characters of an appended string are the appended character lists. -/
theorem string_data_append (a b : String) : (a ++ b).data = a.data ++ b.data := by
  cases a
  cases b
  rfl

/-- JS String.prototype.trim: strip whitespace from both ends. -/
def jsTrim (s : String) : String :=
  String.mk (((s.data.dropWhile Char.isWhitespace).reverse.dropWhile
    Char.isWhitespace).reverse)

/-- JS String.prototype.substring(0, n): the first n characters. -/
def jsTake (s : String) (n : Nat) : String :=
  String.mk (s.data.take n)

/-- Accumulator loop behind jsSplitComma. -/
def splitCommaAux : List Char → List Char → List String
  | [], acc => [String.mk acc.reverse]
  | c :: rest, acc =>
    if c = ',' then String.mk acc.reverse :: splitCommaAux rest []
    else splitCommaAux rest (c :: acc)

/-- JS String.prototype.split(","): the comma-separated segments, empty
segments included, so "a," yields two segments and "" yields one empty one. -/
def jsSplitComma (s : String) : List String :=
  splitCommaAux s.data []

/-- One part of a Gemini content entry (src/ai.ts GeminiPart): free text, a
structured function call, a function response, or inline media. -/
inductive GeminiPart where
  | text (s : String)
  | functionCall (name : String) (args : String)
  | functionResponse (name : String) (result : String)
  | inlineData (mimeType : String) (data : String)
deriving DecidableEq

/-- One Gemini conversation entry (src/ai.ts GeminiContent): a role and parts. -/
structure GeminiContent where
  role : String
  parts : List GeminiPart
deriving DecidableEq

/-- Whether a part is a functionCall, as the filter in chatGemini tests. -/
def isFunctionCall : GeminiPart → Bool
  | GeminiPart.functionCall _ _ => true
  | _ => false

/-- Text payload of a part, for the final text join in chatGemini. -/
def partText : GeminiPart → Option String
  | GeminiPart.text s => some s
  | _ => none

/-- Tool responses the chatGemini loop builds for one model turn: one
functionResponse per functionCall part, in order, each through executeTool. -/
def geminiToolResponses (tools : List ToolDefinition) (ctx : ToolContext)
    (parts : List GeminiPart) : List GeminiPart :=
  (parts.filter isFunctionCall).filterMap (fun p =>
    match p with
    | GeminiPart.functionCall nm args =>
      some (GeminiPart.functionResponse nm (executeTool tools nm args ctx))
    | _ => none)

/-- The while body of chatGemini (src/ai.ts lines 240-311). The model is an
oracle from the accumulated contents to the first candidate's parts (none when
the response has no candidate). The Nat argument is the remaining maxLoops
budget; the result pairs the lastText the loop leaves behind with the number
of model calls made. Fuel 0 corresponds to the while condition maxLoops-- > 0
failing with lastText still the empty string. -/
def geminiLoop (oracle : List GeminiContent → Option (List GeminiPart))
    (tools : List ToolDefinition) (ctx : ToolContext) :
    Nat → List GeminiContent → String × Nat
  | 0, _ => ("", 0)
  | Nat.succ n, contents =>
    match oracle contents with
    | none => ("(no response from Gemini)", 1)
    | some parts =>
      let contents1 := contents ++ [GeminiContent.mk "model" parts]
      if (parts.filter isFunctionCall).isEmpty then
        (String.intercalate "\n" (parts.filterMap partText), 1)
      else
        let r := geminiLoop oracle tools ctx n
          (contents1 ++ [GeminiContent.mk "user" (geminiToolResponses tools ctx parts)])
        (r.1, r.2 + 1)

/-- chatGemini's overall result (src/ai.ts lines 237-313): run the loop with
maxLoops = 10 and apply the `lastText || "(no response)"` fallback; also
reports how many model turns the loop consumed. -/
def chatGemini (oracle : List GeminiContent → Option (List GeminiPart))
    (tools : List ToolDefinition) (ctx : ToolContext)
    (contents : List GeminiContent) : String × Nat :=
  let r := geminiLoop oracle tools ctx 10 contents
  (if r.1 == "" then "(no response)" else r.1, r.2)

/-- One Anthropic content block (src/ai.ts chatAnthropic): text, a tool_use
request, or a tool_result fed back to the model. -/
inductive AnthropicBlock where
  | text (s : String)
  | toolUse (id : String) (name : String) (input : String)
  | toolResult (toolUseId : String) (result : String)
deriving DecidableEq

/-- One Anthropic conversation message: role plus content blocks. -/
structure AnthropicMessage where
  role : String
  content : List AnthropicBlock
deriving DecidableEq

/-- One Anthropic API response: the assistant content and the stop reason. -/
structure AnthropicResponse where
  content : List AnthropicBlock
  stopReason : String
deriving DecidableEq

/-- Tool results the chatAnthropic loop builds for one model turn: one
tool_result block per tool_use block, in order, each through executeTool. -/
def anthropicToolResults (tools : List ToolDefinition) (ctx : ToolContext)
    (blocks : List AnthropicBlock) : List AnthropicBlock :=
  blocks.filterMap (fun b =>
    match b with
    | AnthropicBlock.toolUse id nm input =>
      some (AnthropicBlock.toolResult id (executeTool tools nm input ctx))
    | _ => none)

/-- The do-while loop of chatAnthropic (src/ai.ts lines 468-493), indexed by
fuel because the source loop has NO turn counter: it repeats as long as the
response's stop_reason is tool_use. The result is some finalText when the
loop exits by itself within the given number of iterations, and none when the
fuel runs out with the loop still going — the source would keep iterating. -/
def anthropicLoop (oracle : List AnthropicMessage → AnthropicResponse)
    (tools : List ToolDefinition) (ctx : ToolContext) :
    Nat → List AnthropicMessage → Option String
  | 0, _ => none
  | Nat.succ n, history =>
    let response := oracle history
    let h1 := history ++ [AnthropicMessage.mk "assistant" response.content]
    if response.stopReason == "tool_use" then
      anthropicLoop oracle tools ctx n
        (h1 ++ [AnthropicMessage.mk "user" (anthropicToolResults tools ctx response.content)])
    else
      some (String.intercalate "\n" (response.content.filterMap (fun b =>
        match b with
        | AnthropicBlock.text s => some s
        | _ => none)))

/-- A pathological Gemini model that requests a tool call on every turn and
never returns plain text. -/
def alwaysToolGemini : List GeminiContent → Option (List GeminiPart) :=
  fun _ => some [GeminiPart.functionCall "web_search" "x"]

/-- A pathological Anthropic model that answers every request with a tool_use
block and stop_reason tool_use, never producing final text. -/
def alwaysToolAnthropic : List AnthropicMessage → AnthropicResponse :=
  fun _ => AnthropicResponse.mk [AnthropicBlock.toolUse "1" "web_search" "x"] "tool_use"

/-- Under the always-tool-calling model the Anthropic do-while loop never
exits, whatever iteration count it is given. -/
theorem anthropicLoop_alwaysTool_none (tools : List ToolDefinition)
    (ctx : ToolContext) (fuel : Nat) (history : List AnthropicMessage) :
    anthropicLoop alwaysToolAnthropic tools ctx fuel history = none := by
  induction fuel generalizing history with
  | zero => rfl
  | succ n ih => simpa [anthropicLoop, alwaysToolAnthropic] using ih _

/-- C1: the per-exchange turn budget is NOT enforced under every provider
adapter. Under a model that always requests a tool call and never produces
final text, the Gemini loop does stop after exactly 10 model turns with the
"(no response)" fallback, but the Anthropic adapter's do-while loop never
terminates: for every iteration count it is still looping, because the source
loop has no turn counter at all. -/
theorem agent_turn_budget_not_uniform :
    (∀ fuel history,
      anthropicLoop alwaysToolAnthropic [] (ToolContext.mk none) fuel history = none) ∧
    chatGemini alwaysToolGemini [] (ToolContext.mk none) [] = ("(no response)", 10) :=
  ⟨fun fuel history => anthropicLoop_alwaysTool_none [] (ToolContext.mk none) fuel history,
   by decide⟩

/-- C2: the tool invoker always resolves to a string (executeTool is a total
function into String) and contains every failure: an unregistered name yields
the structured not-found error string, and a handler rejection yields an
error string that carries the handler's message verbatim as a suffix. -/
theorem executeTool_never_raises (tools : List ToolDefinition) (name input : String)
    (ctx : ToolContext) :
    (findTool tools name = none →
      executeTool tools name input ctx = "Error: tool \"" ++ name ++ "\" not found") ∧
    (∀ tool msg, findTool tools name = some tool →
      tool.execute input ctx = Except.error msg →
      executeTool tools name input ctx = "Error executing " ++ name ++ ": " ++ msg ∧
      msg.data <:+ (executeTool tools name input ctx).data) := by
  constructor
  · intro h
    simp [executeTool, h]
  · intro tool msg hf he
    have hval : executeTool tools name input ctx = "Error executing " ++ name ++ ": " ++ msg := by
      simp [executeTool, hf, he]
    refine ⟨hval, ?_⟩
    rw [hval, string_data_append]
    exact List.suffix_append _ _

/-- Inbound binary media attached to a user turn (src/media.ts MediaData):
mime type plus the raw bytes (kept abstract as a string). -/
structure MediaData where
  mimeType : String
  buffer : String
deriving DecidableEq

/-- Outcome of the provider dispatch of chat: the reply text and whether it
came from the Ollama fallback call rather than from the primary Gemini call. -/
structure DispatchResult where
  reply : String
  usedFallback : Bool
deriving DecidableEq

/-- The provider dispatch of chat (src/ai.ts lines 124-135) in the
Gemini-primary configuration. geminiCall models the whole chatGemini call and
receives the media exactly as the source passes it; a thrown provider error
is Except.error. ollamaCall models chatOllama, whose signature takes no media
parameter — the fallback call is text-only. When the Gemini call throws, the
source retries on Ollama whenever OLLAMA_MODEL is configured, without
consulting the media at all; otherwise it rethrows. -/
def chatDispatch (geminiCall : Option MediaData → Except String String)
    (ollamaConfigured : Bool) (ollamaCall : Unit → Except String String)
    (media : Option MediaData) : Except String DispatchResult :=
  match geminiCall media with
  | Except.ok reply => Except.ok (DispatchResult.mk reply false)
  | Except.error e =>
    if ollamaConfigured then
      (ollamaCall ()).map (fun reply => DispatchResult.mk reply true)
    else
      Except.error e

/-- C4 counterexample: a user turn carrying an image, whose Gemini call fails
while Ollama is configured, IS retried against the secondary provider — the
dispatch answers with the Ollama reply, contradicting the claim that
cross-provider fallback never happens for turns with binary media. -/
theorem chat_media_fallback_cex :
    chatDispatch (fun _ => Except.error "Gemini API error: 429")
      true (fun _ => Except.ok "fallback reply")
      (some (MediaData.mk "image/jpeg" "bytes")) =
      Except.ok (DispatchResult.mk "fallback reply" true) := rfl

/-- C4 amended: when the primary Gemini call fails, the turn is retried
against Ollama exactly when OLLAMA_MODEL is configured, whether or not the
turn carries binary media; the fallback call itself is text-only, since
chatOllama takes no media argument. Without a configured fallback the error
propagates, and a successful Gemini call never falls back. -/
theorem chat_fallback_ignores_media (geminiCall : Option MediaData → Except String String)
    (ollamaCall : Unit → Except String String) (media : Option MediaData)
    (e : String) (he : geminiCall media = Except.error e) :
    chatDispatch geminiCall true ollamaCall media =
      (ollamaCall ()).map (fun reply => DispatchResult.mk reply true) ∧
    chatDispatch geminiCall false ollamaCall media = Except.error e ∧
    ∀ reply media2 oc2 cfg, geminiCall media2 = Except.ok reply →
      chatDispatch geminiCall cfg oc2 media2 = Except.ok (DispatchResult.mk reply false) := by
  refine ⟨?_, ?_, ?_⟩
  · simp [chatDispatch, he]
  · simp [chatDispatch, he]
  · intro reply media2 oc2 cfg hok
    simp [chatDispatch, hok]

/-- C4 witness: the amended fallback behaviour at a concrete media-carrying
turn whose Gemini call fails with a quota error. -/
theorem chat_fallback_ignores_media_witness :
    chatDispatch (fun _ => Except.error "quota") true (fun _ => Except.ok "ok")
      (some (MediaData.mk "audio/mp4" "bytes")) =
      ((fun (_ : Unit) => Except.ok "ok") ()).map
        (fun reply => DispatchResult.mk reply true) :=
  (chat_fallback_ignores_media (fun _ => Except.error "quota") (fun _ => Except.ok "ok")
    (some (MediaData.mk "audio/mp4" "bytes")) "quota" rfl).1

/-- One persisted background_tasks row (sessions-spawn BackgroundTask):
status is one of running, completed, failed, cancelled. -/
structure TaskRow where
  id : String
  label : String
  task : String
  status : String
  result : Option String
  model : Option String
  user_id : String
  created_at : String
  completed_at : Option String
deriving DecidableEq

/-- State of the spawn subsystem: the background_tasks table, and the
in-memory runningTasks map from a task id to its registered record (the
AbortController and startedAt timer of an entry carry no further state that
the claims observe). -/
structure SpawnState where
  db : List TaskRow
  runningTasks : List (String × TaskRow)
deriving DecidableEq

/-- An SQL UPDATE ... WHERE id = ? over the rows of a table. -/
def updateRow (db : List TaskRow) (id : String) (f : TaskRow → TaskRow) : List TaskRow :=
  db.map (fun r => if r.id == id then f r else r)

/-- An SQL SELECT * ... WHERE id = ? over the rows of a table. -/
def findRow (db : List TaskRow) (id : String) : Option TaskRow :=
  db.find? (fun r => r.id == id)

/-- runningTasks.get of the in-memory map. -/
def memLookup (m : List (String × TaskRow)) (id : String) : Option TaskRow :=
  (m.find? (fun e => e.1 == id)).map Prod.snd

/-- runningTasks.delete of the in-memory map. -/
def memErase (m : List (String × TaskRow)) (id : String) : List (String × TaskRow) :=
  m.filter (fun e => e.1 != id)

/-- cancelTask of the sessions-spawn module: when the id has a live in-memory
entry, abort it, drop the entry and mark the persisted row cancelled in the
same step; otherwise report false and change nothing. -/
def cancelTask (taskId : String) (now : String) (st : SpawnState) : Bool × SpawnState :=
  match memLookup st.runningTasks taskId with
  | some _ =>
    (true,
     SpawnState.mk
       (updateRow st.db taskId (fun r =>
         { r with status := "cancelled", completed_at := some now }))
       (memErase st.runningTasks taskId))
  | none => (false, st)

/-- Combined instructions steerTask builds: the original task text and the
steer message under the two section labels of the source. -/
def combinedTaskText (original newMessage : String) : String :=
  "Original task: " ++ original ++ "\n\n--- UPDATED INSTRUCTIONS ---\n" ++ newMessage

/-- steerTask of the sessions-spawn module (lines 72-121): when the id has a
live entry, abort and drop it, mark the original row cancelled with result
"Steered to new task", insert a new running row under a fresh random id
whose instructions are the combined text, register the new entry in memory,
and launch the new task body. newId stands for the random id the source
draws; now for the current ISO timestamp. Returns none when the id is not
running. -/
def steerTask (taskId newMessage newId now : String) (st : SpawnState) :
    Option (String × SpawnState) :=
  match memLookup st.runningTasks taskId with
  | none => none
  | some originalTask =>
    some (newId,
      SpawnState.mk
        (updateRow st.db taskId (fun r =>
          { r with status := "cancelled", result := some "Steered to new task",
                   completed_at := some now }) ++
         [TaskRow.mk newId ("[steered] " ++ originalTask.label)
            (combinedTaskText originalTask.task newMessage) "running" none
            originalTask.model originalTask.user_id now none])
        (memErase st.runningTasks taskId ++
         [(newId, TaskRow.mk newId ("[steered] " ++ originalTask.label)
            (combinedTaskText originalTask.task newMessage) "running" none
            originalTask.model originalTask.user_id now none)]))

/-- How one run of the background task body ends: the model call succeeded,
it threw with the signal not aborted, or the abort signal fired (explicit
cancel or the timeout's abortController.abort()). -/
inductive TaskOutcome where
  | success (result : String)
  | failure (message : String)
  | aborted
deriving DecidableEq

/-- executeBackgroundTask of the sessions-spawn module (lines 160-228), as the
state transformation its one run performs. On success the row becomes
completed with the truncated result; on a non-aborted failure it becomes
failed with the truncated error; when the signal is aborted the catch block
returns early and touches NO row — only the finally block runs, which
removes the in-memory entry in every case. -/
def executeBackgroundTask (taskId : String) (outcome : TaskOutcome) (now : String)
    (st : SpawnState) : SpawnState :=
  match outcome with
  | TaskOutcome.success result =>
    SpawnState.mk
      (updateRow st.db taskId (fun r =>
        { r with status := "completed", result := some (jsTake result 10000),
                 completed_at := some now }))
      (memErase st.runningTasks taskId)
  | TaskOutcome.failure message =>
    SpawnState.mk
      (updateRow st.db taskId (fun r =>
        { r with status := "failed", result := some ("Error: " ++ jsTake message 5000),
                 completed_at := some now }))
      (memErase st.runningTasks taskId)
  | TaskOutcome.aborted =>
    SpawnState.mk st.db (memErase st.runningTasks taskId)

/-- The concurrency cap MAX_CHILDREN of the sessions-spawn module. -/
def MAX_CHILDREN : Nat := 5

/-- The running-task count the spawn cap checks: in-memory entries whose
registered record belongs to the user. -/
def userRunningCount (m : List (String × TaskRow)) (userId : String) : Nat :=
  (m.filter (fun e => e.2.user_id == userId)).length

/-- Persisted running rows of one owner, for relating the in-memory count to
the store. -/
def dbRunningCount (db : List TaskRow) (userId : String) : Nat :=
  (db.filter (fun r => r.user_id == userId && r.status == "running")).length

/-- Input of the sessions_spawn tool. -/
structure SpawnInput where
  task : String
  label : Option String
  model : Option String
  timeoutSeconds : Option Int
deriving DecidableEq

/-- Result payload of the sessions_spawn tool, one constructor per
JSON.stringify shape the source returns. -/
inductive SpawnResult where
  | missingTask
  | noUser
  | limitExceeded
  | accepted (taskId : String) (label : String) (timeoutSeconds : Int)
deriving DecidableEq

/-- sessionsSpawnTool.execute (lines 338-418): validate the task text and the
caller, enforce the per-user cap against the in-memory running map, then
persist a running row, register the in-memory entry and launch the body.
newId stands for the random id, now for the current ISO timestamp. -/
def sessionsSpawnExecute (input : SpawnInput) (ctx : ToolContext) (newId now : String)
    (st : SpawnState) : SpawnResult × SpawnState :=
  let task := jsTrim input.task
  if task == "" then (SpawnResult.missingTask, st)
  else
    match ctx.userId with
    | none => (SpawnResult.noUser, st)
    | some userId =>
      if userRunningCount st.runningTasks userId ≥ MAX_CHILDREN then
        (SpawnResult.limitExceeded, st)
      else
        let label :=
          match input.label with
          | some l => if jsTrim l == "" then jsTake task 50 ++ (if 50 < task.length then "..." else "") else jsTrim l
          | none => jsTake task 50 ++ (if 50 < task.length then "..." else "")
        let model :=
          match input.model with
          | some m => if jsTrim m == "" then none else some (jsTrim m)
          | none => none
        let timeoutSec :=
          match input.timeoutSeconds with
          | some x => max 10 (min 600 x)
          | none => 120
        let taskRecord : TaskRow :=
          TaskRow.mk newId label task "running" none model userId now none
        (SpawnResult.accepted newId label timeoutSec,
         SpawnState.mk (st.db ++ [taskRecord]) (st.runningTasks ++ [(newId, taskRecord)]))

/-- Searching a mapped list for a key the mapping preserves finds the mapped
original hit. -/
theorem find?_map_keyed {α : Type} (key : α → String) (g : α → α) (j : String)
    (hg : ∀ a, key (g a) = key a) (l : List α) :
    (l.map g).find? (fun a => key a == j) = (l.find? (fun a => key a == j)).map g := by
  induction l with
  | nil => rfl
  | cons a l ih =>
    rw [List.map_cons, List.find?_cons, List.find?_cons, hg a]
    cases h : (key a == j) with
    | true => simp
    | false => simpa using ih

/-- An UPDATE ... WHERE id = ? rewrites the row a SELECT by any id sees only
when that row matches the updated id. -/
theorem findRow_updateRow (db : List TaskRow) (id j : String) (f : TaskRow → TaskRow)
    (hf : ∀ r, (f r).id = r.id) :
    findRow (updateRow db id f) j =
      (findRow db j).map (fun r => if r.id == id then f r else r) := by
  unfold findRow updateRow
  exact find?_map_keyed TaskRow.id (fun r => if r.id == id then f r else r) j
    (fun r => by by_cases h : (r.id == id) = true <;> simp [h, hf r]) db

/-- SELECT by id over appended tables takes the first table's hit first. -/
theorem findRow_append (db1 db2 : List TaskRow) (j : String) :
    findRow (db1 ++ db2) j = (findRow db1 j).or (findRow db2 j) :=
  List.find?_append

/-- Map lookup distributes over appended entry lists. -/
theorem memLookup_append (m1 m2 : List (String × TaskRow)) (j : String) :
    memLookup (m1 ++ m2) j = (memLookup m1 j).or (memLookup m2 j) := by
  unfold memLookup
  rw [List.find?_append]
  cases h : m1.find? (fun e => e.1 == j) <;> simp [h]

/-- Deleting a key removes it from lookups. -/
theorem memLookup_erase_self (m : List (String × TaskRow)) (j : String) :
    memLookup (memErase m j) j = none := by
  have hf : (m.filter (fun e => e.1 != j)).find? (fun (e : String × TaskRow) => e.1 == j) = none := by
    rw [List.find?_eq_none]
    intro x hx
    have h2 := (List.mem_filter.mp hx).2
    simp only [bne_iff_ne, ne_eq] at h2
    simp [h2]
  unfold memLookup memErase
  rw [hf]
  rfl

/-- Deleting one key cannot create a hit for another. -/
theorem memLookup_erase_none (m : List (String × TaskRow)) (id j : String)
    (h : memLookup m j = none) : memLookup (memErase m id) j = none := by
  unfold memLookup memErase at *
  have hf : m.find? (fun e => e.1 == j) = none := by
    cases hh : m.find? (fun e => e.1 == j) <;> simp [hh] at h ⊢
  rw [List.find?_eq_none] at hf
  have hf2 : (m.filter (fun e => e.1 != id)).find? (fun (e : String × TaskRow) => e.1 == j) = none := by
    rw [List.find?_eq_none]
    intro x hx
    exact hf x (List.mem_filter.mp hx).1
  rw [hf2]
  rfl

/-- A background task driven into the aborted branch by its own timeout:
status of the demo row is running and a live handle is registered. -/
def timeoutDemoRow : TaskRow :=
  TaskRow.mk "t1" "demo" "summarize the article" "running" none none "u1"
    "2026-01-01T00:00:00" none

/-- Spawn-subsystem state holding the one running demo task. -/
def timeoutDemoState : SpawnState :=
  SpawnState.mk [timeoutDemoRow] [("t1", timeoutDemoRow)]

/-- C3: when the timeout's abortController.abort() ends the task body, the
catch block sees signal.aborted and returns without writing the row, while
the finally block still removes the in-memory handle — afterwards the
persisted status is still "running" although no handle exists, violating the
handle-iff-running invariant and never recording a cancelled status. -/
theorem backgroundTask_timeout_leaves_running_row :
    timeoutDemoRow.status = "running" ∧
    findRow (executeBackgroundTask "t1" TaskOutcome.aborted "2026-01-01T00:02:00"
      timeoutDemoState).db "t1" = some timeoutDemoRow ∧
    memLookup (executeBackgroundTask "t1" TaskOutcome.aborted "2026-01-01T00:02:00"
      timeoutDemoState).runningTasks "t1" = none := by
  refine ⟨rfl, by decide, by decide⟩

/-- C5 amended: the spawn cap is enforced against the in-memory runningTasks
registry — a spawn by an owner with five registered running entries returns
the capacity error and leaves both the store and the registry untouched.
Five persisted running rows do NOT imply five registry entries, because the
timeout path strands a row in status running with no entry (see the
counterexample for the resulting cap bypass). -/
theorem spawn_capacity_cap (input : SpawnInput) (ctx : ToolContext)
    (userId newId now : String) (st : SpawnState)
    (htask : jsTrim input.task ≠ "")
    (huser : ctx.userId = some userId)
    (hfive : userRunningCount st.runningTasks userId = 5) :
    sessionsSpawnExecute input ctx newId now st = (SpawnResult.limitExceeded, st) := by
  have h1 : (jsTrim input.task == "") = false := by
    simpa using htask
  have h2 : userRunningCount st.runningTasks userId ≥ MAX_CHILDREN := by
    rw [hfive]
    decide
  unfold sessionsSpawnExecute
  rw [huser]
  simp [h1, h2]

/-- Five running demo rows of one owner, for the capacity witness. -/
def capDemoRows : List TaskRow :=
  [TaskRow.mk "a1" "l1" "w1" "running" none none "u1" "2026-01-01" none,
   TaskRow.mk "a2" "l2" "w2" "running" none none "u1" "2026-01-01" none,
   TaskRow.mk "a3" "l3" "w3" "running" none none "u1" "2026-01-01" none,
   TaskRow.mk "a4" "l4" "w4" "running" none none "u1" "2026-01-01" none,
   TaskRow.mk "a5" "l5" "w5" "running" none none "u1" "2026-01-01" none]

/-- Spawn-subsystem state where owner u1 has five running tasks. -/
def capDemoState : SpawnState :=
  SpawnState.mk capDemoRows (capDemoRows.map (fun r => (r.id, r)))

/-- C6: steering a running task marks the original row cancelled in the same
step as dropping its handle, inserts a new running row under the fresh id
whose persisted instructions carry both the original instructions and the
steer message under the two section labels, and registers the new task with a
live handle. The fresh id drawn by the source is assumed not to collide with
existing rows or handles, which also makes it distinct from the original. -/
theorem steerTask_restart_with_context (st : SpawnState)
    (taskId newMessage newId now : String) (originalTask : TaskRow)
    (hrun : memLookup st.runningTasks taskId = some originalTask)
    (hfreshDb : findRow st.db newId = none)
    (hfreshMem : memLookup st.runningTasks newId = none) :
    ∃ st2, steerTask taskId newMessage newId now st = some (newId, st2) ∧
      newId ≠ taskId ∧
      findRow st2.db taskId = (findRow st.db taskId).map (fun r =>
        { r with status := "cancelled", result := some "Steered to new task",
                 completed_at := some now }) ∧
      findRow st2.db newId = some (TaskRow.mk newId ("[steered] " ++ originalTask.label)
        (combinedTaskText originalTask.task newMessage) "running" none
        originalTask.model originalTask.user_id now none) ∧
      originalTask.task.data <:+: (combinedTaskText originalTask.task newMessage).data ∧
      newMessage.data <:+: (combinedTaskText originalTask.task newMessage).data ∧
      memLookup st2.runningTasks taskId = none ∧
      memLookup st2.runningTasks newId = some (TaskRow.mk newId
        ("[steered] " ++ originalTask.label)
        (combinedTaskText originalTask.task newMessage) "running" none
        originalTask.model originalTask.user_id now none) := by
  have hne : newId ≠ taskId := by
    intro he
    rw [he, hrun] at hfreshMem
    exact Option.noConfusion hfreshMem
  have hb : (newId == taskId) = false := beq_eq_false_iff_ne.mpr hne
  refine ⟨_, by unfold steerTask; rw [hrun], hne, ?_, ?_, ?_, ?_, ?_, ?_⟩
  · rw [findRow_append, findRow_updateRow st.db taskId taskId (fun r =>
      { r with status := "cancelled", result := some "Steered to new task",
               completed_at := some now }) (fun r => rfl)]
    have hnewrec : findRow [TaskRow.mk newId ("[steered] " ++ originalTask.label)
        (combinedTaskText originalTask.task newMessage) "running" none
        originalTask.model originalTask.user_id now none] taskId = none := by
      simp [findRow, List.find?_cons, hb]
    rw [hnewrec]
    cases hfind : findRow st.db taskId with
    | none => rfl
    | some r =>
      have hfind2 : List.find? (fun a => a.id == taskId) st.db = some r := by
        simpa [findRow] using hfind
      have hr := List.find?_some hfind2
      have hr2 : r.id = taskId := by simpa using hr
      simp [hr2]
  · rw [findRow_append, findRow_updateRow st.db taskId newId (fun r =>
      { r with status := "cancelled", result := some "Steered to new task",
               completed_at := some now }) (fun r => rfl), hfreshDb]
    simp [findRow, List.find?_cons]
  · exact ⟨("Original task: " : String).data,
      ("\n\n--- UPDATED INSTRUCTIONS ---\n" ++ newMessage).data,
      by simp [combinedTaskText, string_data_append, List.append_assoc]⟩
  · exact ⟨("Original task: " : String).data ++ originalTask.task.data ++
      ("\n\n--- UPDATED INSTRUCTIONS ---\n" : String).data, [],
      by simp [combinedTaskText, string_data_append, List.append_assoc]⟩
  · rw [memLookup_append, memLookup_erase_self]
    simp [memLookup, List.find?_cons, hb]
  · rw [memLookup_append, memLookup_erase_none st.runningTasks taskId newId hfreshMem]
    simp [memLookup, List.find?_cons]

/-- Running demo task for the steering witness. -/
def steerDemoRow : TaskRow :=
  TaskRow.mk "t1" "research" "find recent papers" "running" none none "u1"
    "2026-01-01" none

/-- Spawn-subsystem state holding the one running steerable task. -/
def steerDemoState : SpawnState :=
  SpawnState.mk [steerDemoRow] [("t1", steerDemoRow)]

/-- C6 witness: steering the concrete running task t1 into t2. -/
theorem steerTask_restart_with_context_witness :
    ∃ st2, steerTask "t1" "focus on 2025" "t2" "2026-01-02" steerDemoState =
        some ("t2", st2) ∧
      "t2" ≠ "t1" ∧
      findRow st2.db "t1" = (findRow steerDemoState.db "t1").map (fun r =>
        { r with status := "cancelled", result := some "Steered to new task",
                 completed_at := some "2026-01-02" }) ∧
      findRow st2.db "t2" = some (TaskRow.mk "t2" ("[steered] " ++ steerDemoRow.label)
        (combinedTaskText steerDemoRow.task "focus on 2025") "running" none
        steerDemoRow.model steerDemoRow.user_id "2026-01-02" none) ∧
      steerDemoRow.task.data <:+: (combinedTaskText steerDemoRow.task "focus on 2025").data ∧
      ("focus on 2025" : String).data <:+:
        (combinedTaskText steerDemoRow.task "focus on 2025").data ∧
      memLookup st2.runningTasks "t1" = none ∧
      memLookup st2.runningTasks "t2" = some (TaskRow.mk "t2"
        ("[steered] " ++ steerDemoRow.label)
        (combinedTaskText steerDemoRow.task "focus on 2025") "running" none
        steerDemoRow.model steerDemoRow.user_id "2026-01-02" none) :=
  steerTask_restart_with_context steerDemoState "t1" "focus on 2025" "t2" "2026-01-02"
    steerDemoRow (by decide) (by decide) (by decide)

/-- C5 witness: the sixth spawn by u1 at the concrete five-task state. -/
theorem spawn_capacity_cap_witness :
    sessionsSpawnExecute (SpawnInput.mk "one more task" none none none)
      (ToolContext.mk (some "u1")) "a6" "2026-01-02" capDemoState =
      (SpawnResult.limitExceeded, capDemoState) :=
  spawn_capacity_cap (SpawnInput.mk "one more task" none none none)
    (ToolContext.mk (some "u1")) "u1" "a6" "2026-01-02" capDemoState
    (by decide) rfl (by decide)

/-- Spawn-subsystem state reached from the consistent five-task state when
task a5's timeout aborts it: the aborted branch leaves a5's row in status
running while the finally block drops its registry entry. -/
def capBugState : SpawnState :=
  executeBackgroundTask "a5" TaskOutcome.aborted "2026-01-02T00:02:00" capDemoState

/-- C5 counterexample: in the reachable post-timeout state, owner u1 has
five persisted tasks in status running but only four registry entries, so
the cap check — which counts the registry — passes: a further spawn is
accepted and persists a sixth running row, refuting the claim that an owner
with five running tasks always gets a capacity error and no new row. -/
theorem spawn_cap_bypassed_after_timeout_cex :
    dbRunningCount capBugState.db "u1" = 5 ∧
    userRunningCount capBugState.runningTasks "u1" = 4 ∧
    (sessionsSpawnExecute (SpawnInput.mk "one more task" none none none)
      (ToolContext.mk (some "u1")) "a6" "2026-01-03" capBugState).1 =
      SpawnResult.accepted "a6" "one more task" 120 ∧
    dbRunningCount (sessionsSpawnExecute (SpawnInput.mk "one more task" none none none)
      (ToolContext.mk (some "u1")) "a6" "2026-01-03" capBugState).2.db "u1" = 6 := by
  decide

/-- One persisted cron_jobs row (src/tools/cron.ts CronJob). The INTEGER
columns enabled and delete_after_run are read as JS truthiness, modelled as
Bool. -/
structure CronJob where
  id : String
  name : String
  schedule : String
  schedule_type : String
  message : String
  target_user_id : String
  timezone : String
  enabled : Bool
  delete_after_run : Bool
  run_count : Nat
  last_run_at : Option String
  last_status : Option String
  last_error : Option String
  created_at : String
deriving DecidableEq

/-- One appended cron_runs audit row (the AUTOINCREMENT key is the position). -/
structure CronRun where
  job_id : String
  job_name : String
  status : String
  error : Option String
  started_at : String
  completed_at : Option String
deriving DecidableEq

/-- State of the scheduler: the cron_jobs table, the append-only cron_runs
table, and the keys of the in-memory activeTasks map of firing handles. -/
structure CronState where
  jobs : List CronJob
  runs : List CronRun
  activeTasks : List String
deriving DecidableEq

/-- SELECT * FROM cron_jobs WHERE id = ?. -/
def findJob (jobs : List CronJob) (id : String) : Option CronJob :=
  jobs.find? (fun j => j.id == id)

/-- UPDATE cron_jobs ... WHERE id = ?. -/
def updateJobRow (jobs : List CronJob) (id : String) (f : CronJob → CronJob) :
    List CronJob :=
  jobs.map (fun j => if j.id == id then f j else j)

/-- DELETE FROM cron_jobs WHERE id = ?. -/
def deleteJobRow (jobs : List CronJob) (id : String) : List CronJob :=
  jobs.filter (fun j => j.id != id)

/-- activeTasks.delete (together with stopping the handle). -/
def activeErase (active : List String) (id : String) : List String :=
  active.filter (fun i => i != id)

/-- The regex test /^\d\d\d\d-\d\d-\d\d/ the cron tool uses to classify a
schedule expression as an ISO-date-like one-shot. -/
def isIsoDateStart (s : String) : Bool :=
  match s.data with
  | a :: b :: c :: d :: e :: f :: g :: h :: i :: j :: _ =>
    a.isDigit && b.isDigit && c.isDigit && d.isDigit && e == '-' &&
    f.isDigit && g.isDigit && h == '-' && i.isDigit && j.isDigit
  | _ => false

/-- JS comparison delay <= 0 where delay may be NaN (none): NaN compares
false, so an unparseable date does NOT take the in-the-past branch. -/
def jsLeZero : Option Int → Bool
  | some d => d ≤ 0
  | none => false

/-- scheduleJob of src/tools/cron.ts (lines 161-203): stop and drop any
existing handle for the id; arm nothing for a disabled job; for a one-shot
job arm a timeout only when the target time is strictly in the future (a past
one-shot is skipped, leaving NO handle); for a recurring job arm a cron
handle only when the expression validates. parseDate models new
Date(s).getTime() with none for NaN; cronValidate models cron.validate.
Returns whether a handle was armed, plus the new handle-key list. -/
def scheduleJob (parseDate : String → Option Int) (cronValidate : String → Bool)
    (now : Int) (job : CronJob) (active : List String) : Bool × List String :=
  if !job.enabled then (false, activeErase active job.id)
  else if job.schedule_type == "once" then
    if jsLeZero ((parseDate job.schedule).map (fun t => t - now)) then
      (false, activeErase active job.id)
    else (true, activeErase active job.id ++ [job.id])
  else if !cronValidate job.schedule then (false, activeErase active job.id)
  else (true, activeErase active job.id ++ [job.id])

/-- Summary-field update a successful firing performs on the job's row. -/
def successJobUpdate (completedAt : String) (j : CronJob) : CronJob :=
  { j with last_run_at := some completedAt, last_status := some "success",
           last_error := none, run_count := j.run_count + 1 }

/-- Summary-field update a failed firing performs on the job's row. -/
def errorJobUpdate (completedAt msg : String) (j : CronJob) : CronJob :=
  { j with last_run_at := some completedAt, last_status := some "error",
           last_error := some (jsTake msg 500), run_count := j.run_count + 1 }

/-- What executeJob returns to its caller. -/
structure RunResult where
  success : Bool
  error : Option String
deriving DecidableEq

/-- executeJob of src/tools/cron.ts (lines 98-158). pushOutcome models the
lineClient.pushMessage call. On success: update the summary fields, append a
success run row, and when the job is one-shot or flagged delete_after_run,
delete the row (if flagged) or disable it, dropping the handle either way.
On failure: update the summary fields with the error, append an error run
row, and touch neither the enabled flag nor the handle. -/
def executeJob (pushOutcome : Except String Unit) (startedAt completedAt : String)
    (job : CronJob) (st : CronState) : RunResult × CronState :=
  match pushOutcome with
  | Except.ok _ =>
    (RunResult.mk true none,
     if job.schedule_type == "once" || job.delete_after_run then
       if job.delete_after_run then
         CronState.mk
           (deleteJobRow (updateJobRow st.jobs job.id (successJobUpdate completedAt)) job.id)
           (st.runs ++ [CronRun.mk job.id job.name "success" none startedAt (some completedAt)])
           (activeErase st.activeTasks job.id)
       else
         CronState.mk
           (updateJobRow (updateJobRow st.jobs job.id (successJobUpdate completedAt)) job.id
             (fun j => { j with enabled := false }))
           (st.runs ++ [CronRun.mk job.id job.name "success" none startedAt (some completedAt)])
           (activeErase st.activeTasks job.id)
     else
       CronState.mk (updateJobRow st.jobs job.id (successJobUpdate completedAt))
         (st.runs ++ [CronRun.mk job.id job.name "success" none startedAt (some completedAt)])
         st.activeTasks)
  | Except.error msg =>
    (RunResult.mk false (some msg),
     CronState.mk (updateJobRow st.jobs job.id (errorJobUpdate completedAt msg))
       (st.runs ++ [CronRun.mk job.id job.name "error" (some (jsTake msg 500)) startedAt
         (some completedAt)])
       st.activeTasks)

/-- Input fields of the cron tool the add/update/wake actions read, each as
the JS typeof-string normalization leaves them: none when absent or of the
wrong type. -/
structure CronInput where
  jobId : Option String
  name : Option String
  schedule : Option String
  message : Option String
  timezone : Option String
  enabled : Option Bool
  deleteAfterRun : Option Bool
deriving DecidableEq

/-- Result payload of the cron tool's add action, one constructor per
JSON.stringify shape the source returns. -/
inductive CronAddResult where
  | missingName
  | missingSchedule
  | missingMessage
  | noUser
  | invalidDate (schedule : String)
  | pastDate
  | invalidSchedule (schedule : String)
  | success (job : CronJob) (scheduled : Bool)
deriving DecidableEq

/-- The add action of cronTool.execute (src/tools/cron.ts lines 334-385):
validate presence of name/schedule/message and the caller; classify the
schedule by the ISO-date regex; a one-shot must parse (else invalid_date)
and be strictly in the future (else past_date); a recurring expression must
pass cron.validate (else invalid_schedule). Only then is a row persisted,
with enabled = 1, and a handle armed. newId stands for the random 8-char id,
createdAt for the current ISO timestamp. -/
def cronAdd (parseDate : String → Option Int) (cronValidate : String → Bool)
    (now : Int) (input : CronInput) (ctx : ToolContext) (newId createdAt : String)
    (st : CronState) : CronAddResult × CronState :=
  let name := jsTrim (input.name.getD "")
  let schedule := jsTrim (input.schedule.getD "")
  let message := jsTrim (input.message.getD "")
  let timezone := match input.timezone with
    | some t => jsTrim t
    | none => "Asia/Bangkok"
  if name == "" then (CronAddResult.missingName, st)
  else if schedule == "" then (CronAddResult.missingSchedule, st)
  else if message == "" then (CronAddResult.missingMessage, st)
  else
    match ctx.userId with
    | none => (CronAddResult.noUser, st)
    | some targetUserId =>
      let checked : Except CronAddResult String :=
        if isIsoDateStart schedule then
          match parseDate schedule with
          | none => Except.error (CronAddResult.invalidDate schedule)
          | some t => if t ≤ now then Except.error CronAddResult.pastDate
                      else Except.ok "once"
        else if !cronValidate schedule then
          Except.error (CronAddResult.invalidSchedule schedule)
        else Except.ok "cron"
      match checked with
      | Except.error e => (e, st)
      | Except.ok scheduleType =>
        let job : CronJob := CronJob.mk newId name schedule scheduleType message
          targetUserId timezone true (input.deleteAfterRun == some true) 0
          none none none createdAt
        let armed := scheduleJob parseDate cronValidate now job st.activeTasks
        (CronAddResult.success job armed.1,
         CronState.mk (st.jobs ++ [job]) st.runs armed.2)

/-- The field patch the update action's UPDATE statement applies: each
provided (and, for the string fields, nonempty-after-trim) field overwrites
the row's column; a validated schedule change also overwrites schedule_type. -/
def cronPatch (input : CronInput) (schedUpd : Option (String × String))
    (j : CronJob) : CronJob :=
  let j1 := match input.name with
    | some s => if jsTrim s == "" then j else { j with name := jsTrim s }
    | none => j
  let j2 := match input.message with
    | some s => if jsTrim s == "" then j1 else { j1 with message := jsTrim s }
    | none => j1
  let j3 := match input.timezone with
    | some s => if jsTrim s == "" then j2 else { j2 with timezone := jsTrim s }
    | none => j2
  let j4 := match input.enabled with
    | some b => { j3 with enabled := b }
    | none => j3
  let j5 := match input.deleteAfterRun with
    | some b => { j4 with delete_after_run := b }
    | none => j4
  match schedUpd with
  | some st => { j5 with schedule := st.1, schedule_type := st.2 }
  | none => j5

/-- Whether the update action's patch list is nonempty (the no_changes check). -/
def cronHasUpdates (input : CronInput) (schedUpd : Option (String × String)) : Bool :=
  (match input.name with | some s => jsTrim s != "" | none => false) ||
  (match input.message with | some s => jsTrim s != "" | none => false) ||
  (match input.timezone with | some s => jsTrim s != "" | none => false) ||
  input.enabled.isSome || input.deleteAfterRun.isSome || schedUpd.isSome

/-- Result payload of the cron tool's update action. -/
inductive CronUpdateResult where
  | missingJobId
  | notFound
  | invalidDate (schedule : String)
  | invalidSchedule (schedule : String)
  | noChanges
  | success (job : CronJob)
deriving DecidableEq

/-- The update action of cronTool.execute (src/tools/cron.ts lines 388-452):
look the job up, re-validate a changed schedule — a one-shot only against
isNaN (invalid_date) and a recurring one against cron.validate — then apply
the patch, reload the row and re-arm its handle through scheduleJob,
replacing any existing handle. The source performs NO past-date check here:
the add action's `d.getTime() <= Date.now()` rejection has no counterpart in
the update branch (lines 425-433). -/
def cronUpdate (parseDate : String → Option Int) (cronValidate : String → Bool)
    (now : Int) (input : CronInput) (st : CronState) : CronUpdateResult × CronState :=
  let jobId := jsTrim (input.jobId.getD "")
  if jobId == "" then (CronUpdateResult.missingJobId, st)
  else
    match findJob st.jobs jobId with
    | none => (CronUpdateResult.notFound, st)
    | some _ =>
      let schedCheck : Except CronUpdateResult (Option (String × String)) :=
        match input.schedule with
        | some raw =>
          if jsTrim raw == "" then Except.ok none
          else if isIsoDateStart (jsTrim raw) then
            match parseDate (jsTrim raw) with
            | none => Except.error (CronUpdateResult.invalidDate (jsTrim raw))
            | some _ => Except.ok (some (jsTrim raw, "once"))
          else if !cronValidate (jsTrim raw) then
            Except.error (CronUpdateResult.invalidSchedule (jsTrim raw))
          else Except.ok (some (jsTrim raw, "cron"))
        | none => Except.ok none
      match schedCheck with
      | Except.error e => (e, st)
      | Except.ok schedUpd =>
        if !cronHasUpdates input schedUpd then (CronUpdateResult.noChanges, st)
        else
          match findJob (updateJobRow st.jobs jobId (cronPatch input schedUpd)) jobId with
          | none => (CronUpdateResult.notFound, st)
          | some updated =>
            (CronUpdateResult.success updated,
             CronState.mk (updateJobRow st.jobs jobId (cronPatch input schedUpd)) st.runs
               (scheduleJob parseDate cronValidate now updated st.activeTasks).2)

/-- Result payload of the cron tool's wake action. -/
inductive CronWakeResult where
  | missingJobId
  | notFound
  | alreadyEnabled (job : CronJob) (scheduled : Bool)
  | woke (job : CronJob) (scheduled : Bool)
deriving DecidableEq

/-- The wake action of cronTool.execute (src/tools/cron.ts lines 536-556): an
already-enabled job is only re-armed through scheduleJob (which first stops
and drops any existing handle, so no duplicate ever arises); a disabled job
is re-enabled (clearing last_error), reloaded and armed. -/
def cronWake (parseDate : String → Option Int) (cronValidate : String → Bool)
    (now : Int) (input : CronInput) (st : CronState) : CronWakeResult × CronState :=
  let jobId := jsTrim (input.jobId.getD "")
  if jobId == "" then (CronWakeResult.missingJobId, st)
  else
    match findJob st.jobs jobId with
    | none => (CronWakeResult.notFound, st)
    | some job =>
      if job.enabled then
        (CronWakeResult.alreadyEnabled job
          (scheduleJob parseDate cronValidate now job st.activeTasks).1,
         CronState.mk st.jobs st.runs
           (scheduleJob parseDate cronValidate now job st.activeTasks).2)
      else
        match findJob (updateJobRow st.jobs jobId (fun j =>
          { j with enabled := true, last_error := none })) jobId with
        | none => (CronWakeResult.notFound, st)
        | some updated =>
          (CronWakeResult.woke updated
            (scheduleJob parseDate cronValidate now updated st.activeTasks).1,
           CronState.mk (updateJobRow st.jobs jobId (fun j =>
             { j with enabled := true, last_error := none })) st.runs
             (scheduleJob parseDate cronValidate now updated st.activeTasks).2)

/-- A job UPDATE by id rewrites exactly the matching row a SELECT sees. -/
theorem findJob_updateJobRow (jobs : List CronJob) (id j : String) (f : CronJob → CronJob)
    (hf : ∀ a, (f a).id = a.id) :
    findJob (updateJobRow jobs id f) j =
      (findJob jobs j).map (fun a => if a.id == id then f a else a) := by
  unfold findJob updateJobRow
  exact find?_map_keyed CronJob.id (fun a => if a.id == id then f a else a) j
    (fun a => by by_cases h : (a.id == id) = true <;> simp [h, hf a]) jobs

/-- A job DELETE by id removes the row from SELECTs. -/
theorem findJob_deleteJobRow_self (jobs : List CronJob) (id : String) :
    findJob (deleteJobRow jobs id) id = none := by
  unfold findJob deleteJobRow
  rw [List.find?_eq_none]
  intro x hx
  have h2 := (List.mem_filter.mp hx).2
  simp only [bne_iff_ne, ne_eq] at h2
  simp [h2]

/-- C8: every firing — scheduled or via the run action, succeeding or failing
— appends exactly one audit row to cron_runs and bumps the fired job's
run_count by exactly one; a failed firing records last_status error with the
truncated message, leaves the enabled flag and the firing handle untouched,
and so never disables the job; a successful firing of a plain recurring job
also leaves flag and handle untouched, while a one-shot (not flagged for
deletion) is disabled after its run_count increment. -/
theorem executeJob_audit (pushOutcome : Except String Unit)
    (startedAt completedAt : String) (job : CronJob) (st : CronState) (old : CronJob)
    (hfound : findJob st.jobs job.id = some old) :
    (∃ run, (executeJob pushOutcome startedAt completedAt job st).2.runs =
      st.runs ++ [run]) ∧
    (∀ msg, pushOutcome = Except.error msg →
      (executeJob pushOutcome startedAt completedAt job st).2 =
        CronState.mk (updateJobRow st.jobs job.id (errorJobUpdate completedAt msg))
          (st.runs ++ [CronRun.mk job.id job.name "error" (some (jsTake msg 500))
            startedAt (some completedAt)])
          st.activeTasks ∧
      findJob (executeJob pushOutcome startedAt completedAt job st).2.jobs job.id =
        some (errorJobUpdate completedAt msg old) ∧
      (errorJobUpdate completedAt msg old).run_count = old.run_count + 1 ∧
      (errorJobUpdate completedAt msg old).enabled = old.enabled ∧
      (errorJobUpdate completedAt msg old).last_status = some "error" ∧
      (errorJobUpdate completedAt msg old).last_error = some (jsTake msg 500)) ∧
    (pushOutcome = Except.ok () →
      (successJobUpdate completedAt old).run_count = old.run_count + 1 ∧
      (job.delete_after_run = false → job.schedule_type ≠ "once" →
        findJob (executeJob pushOutcome startedAt completedAt job st).2.jobs job.id =
          some (successJobUpdate completedAt old) ∧
        (executeJob pushOutcome startedAt completedAt job st).2.activeTasks =
          st.activeTasks) ∧
      (job.delete_after_run = false → job.schedule_type = "once" →
        findJob (executeJob pushOutcome startedAt completedAt job st).2.jobs job.id =
          some { successJobUpdate completedAt old with enabled := false }) ∧
      (job.delete_after_run = true →
        findJob (executeJob pushOutcome startedAt completedAt job st).2.jobs job.id =
          none)) := by
  have hfound2 : List.find? (fun a => a.id == job.id) st.jobs = some old := by
    simpa [findJob] using hfound
  have hold := List.find?_some hfound2
  have hold2 : old.id = job.id := by simpa using hold
  refine ⟨?_, ?_, ?_⟩
  · cases pushOutcome with
    | error msg => exact ⟨_, rfl⟩
    | ok u =>
      unfold executeJob
      by_cases h1 : (job.schedule_type == "once" || job.delete_after_run) = true
      · rw [if_pos h1]
        by_cases h2 : job.delete_after_run = true
        · rw [if_pos h2]
          exact ⟨_, rfl⟩
        · rw [if_neg h2]
          exact ⟨_, rfl⟩
      · rw [if_neg h1]
        exact ⟨_, rfl⟩
  · intro msg hmsg
    subst hmsg
    refine ⟨rfl, ?_, rfl, rfl, rfl, rfl⟩
    show findJob (updateJobRow st.jobs job.id (errorJobUpdate completedAt msg)) job.id = _
    rw [findJob_updateJobRow st.jobs job.id job.id (errorJobUpdate completedAt msg)
      (fun a => rfl), hfound]
    simp [hold2]
  · intro hok
    subst hok
    refine ⟨rfl, ?_, ?_, ?_⟩
    · intro hdar htype
      have h1 : ¬ (job.schedule_type == "once" || job.delete_after_run) = true := by
        simp [hdar, htype]
      constructor
      · show findJob (executeJob (Except.ok ()) startedAt completedAt job st).2.jobs job.id = _
        unfold executeJob
        rw [if_neg h1]
        show findJob (updateJobRow st.jobs job.id (successJobUpdate completedAt)) job.id = _
        rw [findJob_updateJobRow st.jobs job.id job.id (successJobUpdate completedAt)
          (fun a => rfl), hfound]
        simp [hold2]
      · unfold executeJob
        rw [if_neg h1]
    · intro hdar htype
      have h1 : (job.schedule_type == "once" || job.delete_after_run) = true := by
        simp [htype]
      have h2 : ¬ job.delete_after_run = true := by
        simp [hdar]
      unfold executeJob
      rw [if_pos h1, if_neg h2]
      show findJob (updateJobRow (updateJobRow st.jobs job.id (successJobUpdate completedAt))
        job.id (fun j => { j with enabled := false })) job.id = _
      rw [findJob_updateJobRow _ job.id job.id (fun j => { j with enabled := false })
        (fun a => rfl),
        findJob_updateJobRow st.jobs job.id job.id (successJobUpdate completedAt)
          (fun a => rfl), hfound]
      simp [hold2, successJobUpdate]
    · intro hdar
      have h1 : (job.schedule_type == "once" || job.delete_after_run) = true := by
        simp [hdar]
      unfold executeJob
      rw [if_pos h1, if_pos hdar]
      exact findJob_deleteJobRow_self _ job.id

/-- Concrete model of new Date(s).getTime() for the demos: the 2020 date lies
in demoNow's past, the 2030 date in its future, anything else is NaN. -/
def demoParseDate : String → Option Int := fun s =>
  if s == "2020-01-01" then some 1577836800000
  else if s == "2030-01-01" then some 1893456000000
  else none

/-- Concrete model of cron.validate for the demos: exactly the daily-8am
expression validates. -/
def demoCronValidate : String → Bool := fun s => s == "0 8 * * *"

/-- Demo current time (late 2023), strictly between the two demo dates. -/
def demoNow : Int := 1700000000000

/-- Enabled recurring demo job with an armed handle. -/
def cronDemoJob : CronJob :=
  CronJob.mk "j1" "daily" "0 8 * * *" "cron" "good morning" "u1" "Asia/Bangkok"
    true false 3 none none none "2023-01-01"

/-- Scheduler state holding the armed recurring demo job. -/
def cronDemoState : CronState := CronState.mk [cronDemoJob] [] ["j1"]

/-- C8 witness: a failed firing of the concrete recurring job appends exactly
one audit row. -/
theorem executeJob_audit_witness :
    ∃ run, (executeJob (Except.error "channel down") "2026-01-01T08:00:00"
      "2026-01-01T08:00:01" cronDemoJob cronDemoState).2.runs =
      cronDemoState.runs ++ [run] :=
  (executeJob_audit (Except.error "channel down") "2026-01-01T08:00:00"
    "2026-01-01T08:00:01" cronDemoJob cronDemoState cronDemoJob (by decide)).1

/-- Membership in the handle list after a delete. -/
theorem mem_activeErase (active : List String) (id i : String) :
    i ∈ activeErase active id ↔ (i ∈ active ∧ i ≠ id) := by
  unfold activeErase
  simp [List.mem_filter]

/-- The deleted key is gone. -/
theorem not_mem_activeErase_self (active : List String) (id : String) :
    id ∉ activeErase active id := by
  rw [mem_activeErase]
  simp

/-- Deleting keeps the handle list duplicate-free. -/
theorem nodup_activeErase (active : List String) (id : String) (h : active.Nodup) :
    (activeErase active id).Nodup := List.Nodup.filter _ h

/-- Delete-then-set keeps the handle list duplicate-free. -/
theorem nodup_activeErase_append (active : List String) (id : String)
    (h : active.Nodup) : (activeErase active id ++ [id]).Nodup := by
  rw [List.nodup_append]
  refine ⟨nodup_activeErase active id h, List.nodup_singleton id, ?_⟩
  intro a ha hb
  rw [List.mem_singleton] at hb
  rw [hb] at ha
  exact not_mem_activeErase_self active id ha

/-- scheduleJob either leaves no handle for the job (after dropping any
existing one) or arms exactly one, and it arms only for an enabled job. -/
theorem scheduleJob_cases (parseDate : String → Option Int)
    (cronValidate : String → Bool) (now : Int) (job : CronJob) (active : List String) :
    (scheduleJob parseDate cronValidate now job active).2 = activeErase active job.id ∨
    ((scheduleJob parseDate cronValidate now job active).2 =
      activeErase active job.id ++ [job.id] ∧ job.enabled = true) := by
  unfold scheduleJob
  by_cases he : job.enabled = true
  · have hne : ¬ (!job.enabled) = true := by simp [he]
    rw [if_neg hne]
    by_cases ht : (job.schedule_type == "once") = true
    · rw [if_pos ht]
      by_cases hd : jsLeZero ((parseDate job.schedule).map (fun t => t - now)) = true
      · rw [if_pos hd]
        exact Or.inl rfl
      · rw [if_neg hd]
        exact Or.inr ⟨rfl, he⟩
    · rw [if_neg ht]
      by_cases hv : (!cronValidate job.schedule) = true
      · rw [if_pos hv]
        exact Or.inl rfl
      · rw [if_neg hv]
        exact Or.inr ⟨rfl, he⟩
  · have he2 : job.enabled = false := by
      cases hE : job.enabled
      · rfl
      · exact absurd hE he
    have hy : (!job.enabled) = true := by
      rw [he2]
      rfl
    rw [if_pos hy]
    exact Or.inl rfl

/-- scheduleJob keeps the handle-key list duplicate-free. -/
theorem scheduleJob_nodup (parseDate : String → Option Int)
    (cronValidate : String → Bool) (now : Int) (job : CronJob) (active : List String)
    (hnd : active.Nodup) :
    (scheduleJob parseDate cronValidate now job active).2.Nodup := by
  rcases scheduleJob_cases parseDate cronValidate now job active with h | ⟨h, _⟩
  · rw [h]
    exact nodup_activeErase active job.id hnd
  · rw [h]
    exact nodup_activeErase_append active job.id hnd

/-- Disabled, already-fired one-shot job whose date is in the past. -/
def expiredOnceJob : CronJob :=
  CronJob.mk "j2" "alarm" "2020-01-01" "once" "wake up" "u1" "Asia/Bangkok"
    false false 1 (some "2020-01-01T00:00:01") (some "success") none "2019-12-01"

/-- Scheduler state holding the disabled expired one-shot with no handle. -/
def wakeDemoState : CronState := CronState.mk [expiredOnceJob] [] []

/-- C9 counterexample: waking the expired one-shot re-enables the persisted
row (enabled = true) yet scheduleJob skips the past date and arms no handle,
so an enabled job exists with no in-memory firing handle — refuting the
claimed iff between handle existence and the enabled flag. -/
theorem cron_enabled_without_handle_cex :
    (findJob (cronWake demoParseDate demoCronValidate demoNow
        (CronInput.mk (some "j2") none none none none none none) wakeDemoState).2.jobs
      "j2").map CronJob.enabled = some true ∧
    "j2" ∉ (cronWake demoParseDate demoCronValidate demoNow
        (CronInput.mk (some "j2") none none none none none none)
        wakeDemoState).2.activeTasks := by
  decide

/-- C9 amended: a handle exists only for an enabled job (never for a disabled
one), handle keys stay duplicate-free so at most one handle exists per job
id, other jobs' handles are untouched, and re-arming — in particular wake on
an already-enabled job — never duplicates a handle; an enabled recurring job
with a valid expression does get exactly one handle. The converse direction
of the spec's iff fails (see the counterexample): an enabled one-shot whose
time has passed is left with no handle. -/
theorem cron_handle_discipline (parseDate : String → Option Int)
    (cronValidate : String → Bool) (now : Int) (job : CronJob) (active : List String)
    (hnd : active.Nodup) :
    ((scheduleJob parseDate cronValidate now job active).2.Nodup) ∧
    (job.id ∈ (scheduleJob parseDate cronValidate now job active).2 →
      job.enabled = true) ∧
    (∀ i, i ≠ job.id →
      (i ∈ (scheduleJob parseDate cronValidate now job active).2 ↔ i ∈ active)) ∧
    ((scheduleJob parseDate cronValidate now job active).2.count job.id ≤ 1) ∧
    (job.enabled = true → job.schedule_type ≠ "once" →
      cronValidate job.schedule = true →
      (scheduleJob parseDate cronValidate now job active).1 = true ∧
      (scheduleJob parseDate cronValidate now job active).2.count job.id = 1) ∧
    (∀ (st : CronState) (input : CronInput) (jobId : String) (j : CronJob),
      jsTrim (input.jobId.getD "") = jobId → jobId ≠ "" →
      findJob st.jobs jobId = some j → j.enabled = true → st.activeTasks.Nodup →
      (cronWake parseDate cronValidate now input st).2.activeTasks.Nodup ∧
      (cronWake parseDate cronValidate now input st).2.activeTasks.count jobId ≤ 1) := by
  have hcount0 : (activeErase active job.id).count job.id = 0 :=
    List.count_eq_zero.mpr (not_mem_activeErase_self active job.id)
  refine ⟨scheduleJob_nodup parseDate cronValidate now job active hnd, ?_, ?_, ?_, ?_, ?_⟩
  · intro hmem
    rcases scheduleJob_cases parseDate cronValidate now job active with h | ⟨h, he⟩
    · rw [h, mem_activeErase] at hmem
      exact absurd rfl hmem.2
    · exact he
  · intro i hi
    rcases scheduleJob_cases parseDate cronValidate now job active with h | ⟨h, _⟩
    · rw [h, mem_activeErase]
      simp [hi]
    · rw [h]
      simp only [List.mem_append, List.mem_singleton, mem_activeErase]
      simp [hi]
  · exact List.nodup_iff_count_le_one.mp
      (scheduleJob_nodup parseDate cronValidate now job active hnd) job.id
  · intro he ht hv
    have h1 : ¬ (!job.enabled) = true := by simp [he]
    have h2 : ¬ (job.schedule_type == "once") = true := by simp [ht]
    have h3 : ¬ (!cronValidate job.schedule) = true := by simp [hv]
    have harm : scheduleJob parseDate cronValidate now job active =
        (true, activeErase active job.id ++ [job.id]) := by
      unfold scheduleJob
      rw [if_neg h1, if_neg h2, if_neg h3]
    rw [harm]
    refine ⟨rfl, ?_⟩
    show (activeErase active job.id ++ [job.id]).count job.id = 1
    rw [List.count_append, hcount0]
    simp
  · intro st input jobId j hjid hjidne hfind hen hndst
    have hpost : (cronWake parseDate cronValidate now input st).2.activeTasks =
        (scheduleJob parseDate cronValidate now j st.activeTasks).2 := by
      unfold cronWake
      simp only [hjid]
      rw [if_neg (by simp [hjidne]), hfind]
      simp [hen]
    rw [hpost]
    refine ⟨scheduleJob_nodup parseDate cronValidate now j st.activeTasks hndst, ?_⟩
    exact List.nodup_iff_count_le_one.mp
      (scheduleJob_nodup parseDate cronValidate now j st.activeTasks hndst) jobId

/-- C9 witness: re-arming the enabled recurring demo job over a duplicate-free
handle list yields an armed flag and exactly one handle for it. -/
theorem cron_handle_discipline_witness :
    (scheduleJob demoParseDate demoCronValidate demoNow cronDemoJob ["j1", "k2"]).1 = true ∧
    (scheduleJob demoParseDate demoCronValidate demoNow cronDemoJob
      ["j1", "k2"]).2.count "j1" = 1 :=
  (cron_handle_discipline demoParseDate demoCronValidate demoNow cronDemoJob
    ["j1", "k2"] (by decide)).2.2.2.2.1 (by decide) (by decide) (by decide)

/-- The update patch never touches the row's id column. -/
theorem cronPatch_id (input : CronInput) (u : Option (String × String)) (j : CronJob) :
    (cronPatch input u j).id = j.id := by
  unfold cronPatch
  cases input.name <;> cases input.message <;> cases input.timezone <;>
    cases input.enabled <;> cases input.deleteAfterRun <;> cases u <;>
      simp only [] <;> split_ifs <;> rfl

/-- Update input that changes the recurring demo job's schedule to the past
one-shot date. -/
def demoUpdatePastInput : CronInput :=
  CronInput.mk (some "j1") none (some "2020-01-01") none none none none

/-- Add input proposing the same past one-shot date. -/
def demoAddPastInput : CronInput :=
  CronInput.mk none (some "daily") (some "2020-01-01") (some "good morning") none none none

/-- C7 counterexample: the very schedule string the add action rejects with
past_date is accepted by the update action, which persists it and reports
success — update does NOT re-validate the strictly-in-the-future requirement
the way add does. -/
theorem cron_update_accepts_past_date_cex :
    (cronUpdate demoParseDate demoCronValidate demoNow demoUpdatePastInput
        cronDemoState).1 =
      CronUpdateResult.success
        { cronDemoJob with schedule := "2020-01-01", schedule_type := "once" } ∧
    cronAdd demoParseDate demoCronValidate demoNow demoAddPastInput
      (ToolContext.mk (some "u1")) "j9" "2026-01-01" cronDemoState =
      (CronAddResult.pastDate, cronDemoState) := by
  decide

/-- C7 amended: add classifies an ISO-date-like schedule as one-shot and
rejects it when it is not strictly in the future (past_date) or unparseable
(invalid_date), rejects an invalid recurring expression (invalid_schedule),
and persists no row in any of these cases; update re-validates a changed
schedule the same way only for the type detection and the invalid_date /
invalid_schedule checks — it accepts EVERY parseable one-shot date, past
ones included, omitting add's strictly-in-the-future check. -/
theorem cron_schedule_validation
    (parseDate : String → Option Int) (cronValidate : String → Bool) (now : Int)
    (input : CronInput) (ctx : ToolContext) (uid newId createdAt : String)
    (st : CronState) (sch : String) (t : Int) (jobId : String) (old : CronJob)
    (hn : jsTrim (input.name.getD "") ≠ "")
    (hm : jsTrim (input.message.getD "") ≠ "")
    (hu : ctx.userId = some uid)
    (hs : input.schedule = some sch)
    (hst : jsTrim sch = sch)
    (hsne : sch ≠ "")
    (hj : jsTrim (input.jobId.getD "") = jobId)
    (hjne : jobId ≠ "")
    (hfound : findJob st.jobs jobId = some old) :
    (isIsoDateStart sch = true → parseDate sch = some t → t ≤ now →
      cronAdd parseDate cronValidate now input ctx newId createdAt st =
        (CronAddResult.pastDate, st)) ∧
    (isIsoDateStart sch = true → parseDate sch = none →
      cronAdd parseDate cronValidate now input ctx newId createdAt st =
        (CronAddResult.invalidDate sch, st) ∧
      cronUpdate parseDate cronValidate now input st =
        (CronUpdateResult.invalidDate sch, st)) ∧
    (isIsoDateStart sch = false → cronValidate sch = false →
      cronAdd parseDate cronValidate now input ctx newId createdAt st =
        (CronAddResult.invalidSchedule sch, st) ∧
      cronUpdate parseDate cronValidate now input st =
        (CronUpdateResult.invalidSchedule sch, st)) ∧
    (isIsoDateStart sch = true → ∀ t2, parseDate sch = some t2 →
      (cronUpdate parseDate cronValidate now input st).1 =
        CronUpdateResult.success (cronPatch input (some (sch, "once")) old)) := by
  have hfound2 : List.find? (fun a => a.id == jobId) st.jobs = some old := by
    simpa [findJob] using hfound
  have hold := List.find?_some hfound2
  have hold2 : old.id = jobId := by simpa using hold
  have hschd : jsTrim (input.schedule.getD "") = sch := by
    rw [hs]
    simpa using hst
  have hsne2 : jsTrim (input.schedule.getD "") ≠ "" := by
    rw [hschd]
    exact hsne
  refine ⟨?_, ?_, ?_, ?_⟩
  · intro hiso hpd hle
    unfold cronAdd
    simp [hschd, hn, hm, hsne2, hsne, hu, hiso, hpd, hle]
  · intro hiso hpd
    constructor
    · unfold cronAdd
      simp [hschd, hn, hm, hsne2, hsne, hu, hiso, hpd]
    · unfold cronUpdate
      simp [hj, hjne, hfound, hs, hst, hsne, hiso, hpd]
  · intro hiso hcv
    constructor
    · unfold cronAdd
      simp [hschd, hn, hm, hsne2, hsne, hu, hiso, hcv]
    · unfold cronUpdate
      simp [hj, hjne, hfound, hs, hst, hsne, hiso, hcv]
  · intro hiso t2 hpd
    have hupd : findJob (updateJobRow st.jobs jobId (cronPatch input (some (sch, "once"))))
        jobId = some (cronPatch input (some (sch, "once")) old) := by
      rw [findJob_updateJobRow st.jobs jobId jobId (cronPatch input (some (sch, "once")))
        (cronPatch_id input (some (sch, "once"))), hfound]
      simp [hold2]
    unfold cronUpdate
    simp [hj, hjne, hfound, hs, hst, hsne, hiso, hpd, cronHasUpdates, hupd]

/-- Input carrying both the add fields and a jobId, proposing the past
one-shot date, for the validation witness. -/
def demoBothInput : CronInput :=
  CronInput.mk (some "j1") (some "daily") (some "2020-01-01") (some "good morning")
    none none none

/-- C7 witness: the concrete past date is rejected by add with past_date and
no persisted row, while update accepts the very same schedule. -/
theorem cron_schedule_validation_witness :
    cronAdd demoParseDate demoCronValidate demoNow demoBothInput
      (ToolContext.mk (some "u1")) "j9" "2026-01-01" cronDemoState =
      (CronAddResult.pastDate, cronDemoState) ∧
    (cronUpdate demoParseDate demoCronValidate demoNow demoBothInput cronDemoState).1 =
      CronUpdateResult.success
        (cronPatch demoBothInput (some ("2020-01-01", "once")) cronDemoJob) := by
  have h := cron_schedule_validation demoParseDate demoCronValidate demoNow demoBothInput
    (ToolContext.mk (some "u1")) "u1" "j9" "2026-01-01" cronDemoState "2020-01-01"
    1577836800000 "j1" cronDemoJob (by decide) (by decide) rfl rfl (by decide)
    (by decide) (by decide) (by decide) (by decide)
  exact ⟨h.1 (by decide) (by decide) (by decide),
    h.2.2.2 (by decide) 1577836800000 (by decide)⟩

/-- isOwner of the gateway and sessions_send tools (identical in both): with
OWNER_USER_ID unset, or set to a string whose trim is empty, everyone is an
owner; otherwise a missing or empty caller userId is rejected, and the
userId must appear among the trimmed comma-separated entries. -/
def isOwner (ownerEnv : Option String) (userId : Option String) : Bool :=
  if jsTrim (ownerEnv.getD "") == "" then true
  else
    match userId with
    | none => false
    | some u =>
      if u == "" then false
      else ((jsSplitComma (jsTrim (ownerEnv.getD ""))).map jsTrim).contains u

/-- What an owner-guarded tool execution produces: the forbidden error
payload, or the output of the remainder of the tool body. -/
inductive GuardedResult where
  | forbidden (message : String)
  | allowed (output : String)
deriving DecidableEq

/-- The owner gate both privileged tools open with: reject with the tool's
forbidden payload before performing any action, else run the rest of the
body. -/
def ownerGuard (ownerEnv : Option String) (forbiddenMessage : String)
    (rest : ToolContext → String) (ctx : ToolContext) : GuardedResult :=
  if !isOwner ownerEnv ctx.userId then GuardedResult.forbidden forbiddenMessage
  else GuardedResult.allowed (rest ctx)

/-- gatewayTool.execute's owner gate, with the remainder of the body
abstracted as rest. -/
def gatewayExecute (ownerEnv : Option String) (rest : ToolContext → String)
    (ctx : ToolContext) : GuardedResult :=
  ownerGuard ownerEnv "This tool is restricted to the bot owner." rest ctx

/-- sessionsSendTool.execute's owner gate, with the remainder of the body
abstracted as rest. -/
def sessionsSendExecute (ownerEnv : Option String) (rest : ToolContext → String)
    (ctx : ToolContext) : GuardedResult :=
  ownerGuard ownerEnv "sessions_send is restricted to the bot owner." rest ctx

/-- C10 counterexample: with OWNER_USER_ID set to "alice," the empty string
IS one of the trimmed comma-separated entries, yet a caller whose userId is
the empty string is rejected (the !userId guard fires first) — so it is not
true that exactly the callers whose userId appears in the list pass. -/
theorem owner_empty_entry_cex :
    ((jsSplitComma (jsTrim "alice,")).map jsTrim).contains "" = true ∧
    isOwner (some "alice,") (some "") = false ∧
    gatewayExecute (some "alice,") (fun _ => "ok") (ToolContext.mk (some "")) =
      GuardedResult.forbidden "This tool is restricted to the bot owner." := by
  decide

/-- C10 amended: with OWNER_USER_ID unset or trim-empty every caller passes;
with it set, exactly the callers with a NONEMPTY userId among the trimmed
comma-separated entries pass (a missing or empty userId is always rejected,
even if the list contains an empty entry); a non-owner receives the tool's
forbidden payload in place of the action, an owner reaches the tool body. -/
theorem owner_allowlist_spec :
    (∀ ownerEnv userId, jsTrim (ownerEnv.getD "") = "" →
      isOwner ownerEnv userId = true) ∧
    (∀ ownerEnv u, jsTrim (ownerEnv.getD "") ≠ "" →
      (isOwner ownerEnv (some u) = true ↔
        (u ≠ "" ∧ u ∈ (jsSplitComma (jsTrim (ownerEnv.getD ""))).map jsTrim))) ∧
    (∀ ownerEnv, jsTrim (ownerEnv.getD "") ≠ "" → isOwner ownerEnv none = false) ∧
    (∀ ownerEnv rest ctx, isOwner ownerEnv ctx.userId = false →
      gatewayExecute ownerEnv rest ctx =
        GuardedResult.forbidden "This tool is restricted to the bot owner." ∧
      sessionsSendExecute ownerEnv rest ctx =
        GuardedResult.forbidden "sessions_send is restricted to the bot owner.") ∧
    (∀ ownerEnv rest ctx, isOwner ownerEnv ctx.userId = true →
      gatewayExecute ownerEnv rest ctx = GuardedResult.allowed (rest ctx) ∧
      sessionsSendExecute ownerEnv rest ctx = GuardedResult.allowed (rest ctx)) := by
  refine ⟨?_, ?_, ?_, ?_, ?_⟩
  · intro ownerEnv userId h
    unfold isOwner
    simp [h]
  · intro ownerEnv u h
    unfold isOwner
    rw [if_neg (by simpa using h)]
    by_cases hu : u = ""
    · simp [hu]
    · simp [hu, List.elem_iff]
  · intro ownerEnv h
    unfold isOwner
    rw [if_neg (by simpa using h)]
  · intro ownerEnv rest ctx h
    constructor
    · unfold gatewayExecute ownerGuard
      rw [if_pos (by simp [h])]
    · unfold sessionsSendExecute ownerGuard
      rw [if_pos (by simp [h])]
  · intro ownerEnv rest ctx h
    constructor
    · unfold gatewayExecute ownerGuard
      rw [if_neg (by simp [h])]
    · unfold sessionsSendExecute ownerGuard
      rw [if_neg (by simp [h])]

end MyClaw
